import Mathlib

/-!
Verification of the `observe` logging library (agility-partners/observe).

The authoritative implementation is the plain `Logger` class in
`src/src/observe.ts` (the class-based variant: constructor, `initLogtail`,
the leveled methods, `sendToBetterStack`, `with`, `flush`).  The file
`src/unnamed/part_000` contains an earlier variant of the same class whose
`flush` has no timeout; it is embedded separately where a claim cites it.

The embedding models the JavaScript runtime values the code manipulates
(strings, numbers, booleans, null, undefined, bigints, Error objects,
plain objects, arrays), `JSON.stringify` including its throwing cases,
object spread with rightmost-wins precedence, and the logger as an
explicit state record.  Asynchronous promise settlement (for `flush`) is
modelled by an explicit drain-behaviour datatype and settlement times.
-/

namespace Observe

mutual
/-- JavaScript runtime values as manipulated by the logger.  `verror`
carries an Error's (non-enumerable) name, message and stack plus its
enumerable own fields; `vbigint` models BigInt, on which
`JSON.stringify` throws. -/
inductive Value : Type where
  | str : String → Value
  | num : Int → Value
  | bool : Bool → Value
  | vnull : Value
  | vundefined : Value
  | vbigint : Int → Value
  | verror : String → String → String → Fields → Value
  | obj : Fields → Value
  | arr : Elems → Value

inductive Fields : Type where
  | nil : Fields
  | cons : String → Value → Fields → Fields

inductive Elems : Type where
  | nil : Elems
  | cons : Value → Elems → Elems
end

deriving instance DecidableEq for Value, Fields, Elems

/-- `typeof v === 'string'`. -/
def isStr : Value → Bool
  | .str _ => true
  | _ => false

/-- `typeof v === 'object'` (true for null, plain objects, arrays and
Error objects). -/
def typeofObject : Value → Bool
  | .vnull => true
  | .obj _ => true
  | .arr _ => true
  | .verror _ _ _ _ => true
  | _ => false

/-- `v === null`. -/
def isVNull : Value → Bool
  | .vnull => true
  | _ => false

/-- JavaScript truthiness. -/
def jsTruthy : Value → Bool
  | .str s => !(s == "")
  | .num n => !(n == 0)
  | .bool b => b
  | .vnull => false
  | .vundefined => false
  | .vbigint n => !(n == 0)
  | .verror _ _ _ _ => true
  | .obj _ => true
  | .arr _ => true

/-- Property read `m[k]`: first matching key (JS objects have unique
keys, so first = only). -/
def fget : Fields → String → Option Value
  | .nil, _ => none
  | .cons k v rest, q => if k = q then some v else fget rest q

/-- Property write `m[k] = w`: replace the first occurrence of the key
in place, else append (JS object-spread update order). -/
def fset : Fields → String → Value → Fields
  | .nil, q, w => .cons q w .nil
  | .cons k v rest, q, w =>
      if k = q then .cons k w rest else .cons k v (fset rest q w)

/-- Last binding of a key in an entry list: the value a JS spread of
these entries would leave for the key (rightmost wins). -/
def fgetLast : Fields → String → Option Value
  | .nil, _ => none
  | .cons k v rest, q =>
      match fgetLast rest q with
      | some w => some w
      | none => if k = q then some v else none

/-- `k in m`. -/
def hasKey : Fields → String → Bool
  | .nil, _ => false
  | .cons k _ rest, q => (k == q) || hasKey rest q

/-- All keys distinct (the invariant of every real JS object). -/
def keysNodup : Fields → Bool
  | .nil => true
  | .cons k _ rest => !hasKey rest k && keysNodup rest

/-- Spread `src` into `m` entry by entry: `{...m, ...src}` when `m` is
itself the entry list of an object. -/
def spreadInto : Fields → Fields → Fields
  | m, .nil => m
  | m, .cons k v rest => spreadInto (fset m k v) rest

/-- Index-keyed entries of an array, as object spread sees them. -/
def indexEntries : Nat → Elems → Fields
  | _, .nil => .nil
  | i, .cons v rest => .cons (toString i) v (indexEntries (i + 1) rest)

/-- Enumerable own entries of a value, as `{...v}` spreads them: a plain
object contributes its fields, an array its index-keyed elements, an
Error its enumerable extra fields, everything else nothing. -/
def enumEntries : Value → Fields
  | .obj f => f
  | .arr es => indexEntries 0 es
  | .verror _ _ _ extra => extra
  | _ => .nil

/-- `{...m, ...v}` for a field list `m` and an arbitrary value `v`. -/
def mergeSpread (m : Fields) (v : Value) : Fields :=
  spreadInto m (enumEntries v)

/-- List-of-values to array elements. -/
def elemsOf : List Value → Elems
  | [] => .nil
  | v :: rest => .cons v (elemsOf rest)

/-- JSON string-escaping of one character. -/
def escapeChar (c : Char) : String :=
  if c = '"' then "\\\""
  else if c = '\\' then "\\\\"
  else if c = '\n' then "\\n"
  else if c = '\r' then "\\r"
  else if c = '\t' then "\\t"
  else String.singleton c

/-- JSON quoting of a string. -/
def jsonQuote (s : String) : String :=
  "\"" ++ String.join (s.toList.map escapeChar) ++ "\""

mutual
/-- `JSON.stringify` on one value.  `.ok none` means the value
serializes to nothing (JS `undefined`, dropped in objects and rendered
`null` in arrays); `.error ()` means `JSON.stringify` throws (BigInt).
An Error object serializes through its enumerable own fields only, so a
plain Error renders as an empty object. -/
def jsonVal : Value → Except Unit (Option String)
  | .str s => .ok (some (jsonQuote s))
  | .num n => .ok (some (toString n))
  | .bool b => .ok (some (if b then "true" else "false"))
  | .vnull => .ok (some "null")
  | .vundefined => .ok none
  | .vbigint _ => .error ()
  | .verror _ _ _ extra =>
      match jsonFields extra with
      | .ok ps => .ok (some ("\x7b" ++ String.intercalate "," ps ++ "\x7d"))
      | .error e => .error e
  | .obj f =>
      match jsonFields f with
      | .ok ps => .ok (some ("\x7b" ++ String.intercalate "," ps ++ "\x7d"))
      | .error e => .error e
  | .arr es =>
      match jsonElems es with
      | .ok ps => .ok (some ("[" ++ String.intercalate "," ps ++ "]"))
      | .error e => .error e

/-- `JSON.stringify` rendering of object fields. -/
def jsonFields : Fields → Except Unit (List String)
  | .nil => .ok []
  | .cons k v rest =>
      match jsonVal v with
      | .error e => .error e
      | .ok none => jsonFields rest
      | .ok (some s) =>
          match jsonFields rest with
          | .error e => .error e
          | .ok ps => .ok ((jsonQuote k ++ ":" ++ s) :: ps)

/-- `JSON.stringify` rendering of array elements. -/
def jsonElems : Elems → Except Unit (List String)
  | .nil => .ok []
  | .cons v rest =>
      match jsonVal v with
      | .error e => .error e
      | .ok os =>
          match jsonElems rest with
          | .error e => .error e
          | .ok ps => .ok (os.getD "null" :: ps)
end

/-- `JSON.stringify(args)` for the argument array (an array always
renders to a string when stringification does not throw). -/
def jsonStringifyArr (args : List Value) : Except Unit String :=
  match jsonVal (.arr (elemsOf args)) with
  | .ok (some s) => .ok s
  | .ok none => .ok ""
  | .error e => .error e

/-- The service-identity triple stored on a `Logger` instance
(`this.service`, `this.environment`, `this.version`). -/
structure Identity where
  service : Value
  environment : Value
  version : Value
deriving DecidableEq

/-- The metadata a call starts from in `sendToBetterStack`
(src/src/observe.ts lines 324-329): identity fields plus an explicit
timestamp `new Date().toISOString()`, passed here as the clock reading
`ts`. -/
def baseMeta (i : Identity) (ts : String) : Fields :=
  .cons "service" i.service
    (.cons "environment" i.environment
      (.cons "version" i.version
        (.cons "timestamp" (.str ts) .nil)))

/-- The argument-normalization of `sendToBetterStack`
(src/src/observe.ts lines 322-350): empty argument list gives an empty
message; a string head is the message, with a single non-null object
second argument spread-merged into the metadata and any other trailing
arguments attached verbatim under `args`; a non-string head makes the
message `JSON.stringify` of the whole argument array, which can throw
(`.error ()`), to be caught by the caller's try/catch. -/
def normalize (i : Identity) (ts : String) (args : List Value) :
    Except Unit (String × Fields) :=
  match args with
  | [] => .ok ("", baseMeta i ts)
  | a0 :: rest =>
    match a0 with
    | .str s =>
      match rest with
      | [] => .ok (s, baseMeta i ts)
      | [a1] =>
        if typeofObject a1 && !isVNull a1 then
          .ok (s, mergeSpread (baseMeta i ts) a1)
        else
          .ok (s, fset (baseMeta i ts) "args" (.arr (elemsOf rest)))
      | _ => .ok (s, fset (baseMeta i ts) "args" (.arr (elemsOf rest)))
    | _ =>
      match jsonStringifyArr args with
      | .ok s => .ok (s, baseMeta i ts)
      | .error e => .error e

/-- Equality of `Except` results is decidable componentwise. -/
instance {e a : Type} [DecidableEq e] [DecidableEq a] : DecidableEq (Except e a) :=
  fun x y =>
    match x, y with
    | .ok u, .ok v =>
        if h : u = v then isTrue (by rw [h])
        else isFalse (by intro hh; cases hh; exact h rfl)
    | .error u, .error v =>
        if h : u = v then isTrue (by rw [h])
        else isFalse (by intro hh; cases hh; exact h rfl)
    | .ok _, .error _ => isFalse (by intro hh; cases hh)
    | .error _, .ok _ => isFalse (by intro hh; cases hh)

/-- The process-environment variables the constructor consults. -/
structure Env where
  betterStackToken : Option String
  betterStackEndpoint : Option String
  serviceName : Option String
  nodeEnv : Option String
  serviceVersion : Option String
deriving DecidableEq

/-- A `process.env` read: a set variable is a string, an unset one is
`undefined`. -/
def envVal : Option String → Value
  | some s => .str s
  | none => .vundefined

/-- JavaScript `a || b`. -/
def jsOrV (a b : Value) : Value := if jsTruthy a then a else b

/-- Property read defaulting to `undefined`, as JS does for a missing
key. -/
def fgetV (m : Fields) (k : String) : Value := (fget m k).getD .vundefined

/-- The state of one `Logger` instance (src/src/observe.ts lines
222-229): the constructed Logtail sink if any (its token and resolved
endpoint), the `isInitialized` flag, the stored credential fields and
identity fields, plus an instrumentation counter of how many times
`new Logtail(...)` has been attempted. -/
structure LoggerState where
  logtail : Option (Value × String)
  isInit : Bool
  betterStackToken : Value
  betterStackEndpoint : Value
  service : Value
  environment : Value
  version : Value
  attempts : Nat
deriving DecidableEq

/-- The identity triple of a logger state. -/
def identOf (st : LoggerState) : Identity :=
  ⟨st.service, st.environment, st.version⟩

/-- Endpoint resolution inside `initLogtail` (lines 256-259): default
the endpoint, then prepend `https://` unless a scheme is present.
Returns `none` when the stored endpoint is a truthy non-string, on
which `.startsWith` would throw (caught by the surrounding try). -/
def computeEndpoint (ep : Value) : Option String :=
  match jsOrV ep (.str "your-ingesting-url.betterstackdata.com") with
  | .str s =>
      some (if s.startsWith "http://" || s.startsWith "https://"
            then s else "https://" ++ s)
  | _ => none

/-- `initLogtail` (src/src/observe.ts lines 250-273): a no-op once
initialized; otherwise, with a truthy token, attempt to construct the
Logtail sink.  `ctorFails` says whether `new Logtail` throws in the
current environment; a thrown constructor is caught, leaving
`isInitialized` false.  Each constructor execution bumps `attempts`. -/
def initLogtail (ctorFails : Bool) (st : LoggerState) : LoggerState :=
  if st.isInit then st
  else if jsTruthy st.betterStackToken then
    match computeEndpoint st.betterStackEndpoint with
    | some ep =>
        if ctorFails then { st with attempts := st.attempts + 1 }
        else { st with attempts := st.attempts + 1,
                       logtail := some (st.betterStackToken, ep),
                       isInit := true }
    | none => st
  else st

/-- The `Logger` constructor (src/src/observe.ts lines 231-247):
options are a JS object read key by key (unrecognized keys are simply
never read), each field falling back to a process-environment variable
and then a hard-coded default, followed by `initLogtail`. -/
def mkLogger (opts : Fields) (env : Env) (ctorFails : Bool) : LoggerState :=
  initLogtail ctorFails
    { logtail := none
      isInit := false
      betterStackToken :=
        jsOrV (fgetV opts "betterStackToken") (envVal env.betterStackToken)
      betterStackEndpoint :=
        jsOrV (fgetV opts "betterStackEndpoint") (envVal env.betterStackEndpoint)
      service :=
        jsOrV (fgetV opts "service")
          (jsOrV (envVal env.serviceName) (.str "application"))
      environment :=
        jsOrV (fgetV opts "environment")
          (jsOrV (envVal env.nodeEnv) (.str "development"))
      version :=
        jsOrV (fgetV opts "version")
          (jsOrV (envVal env.serviceVersion) (.str "1.0.0"))
      attempts := 0 }

/-- One record handed to the remote sink: `this.logtail[level](message,
metadata)`. -/
structure Submission where
  level : String
  message : String
  metadata : Fields
deriving DecidableEq

/-- `typeof this.logtail[level] === 'function'` for the level names this
code passes. -/
def levelFn (level : String) : Bool :=
  level == "info" || level == "warn" || level == "error" || level == "debug"

/-- The re-initialization guard at the top of `sendToBetterStack`
(lines 312-319): with no sink but a truthy token and a failed
initialization, try `initLogtail` again on this very call. -/
def reinitIfNeeded (ctorFails : Bool) (st : LoggerState) : LoggerState :=
  if st.logtail.isNone then
    if jsTruthy st.betterStackToken && !st.isInit then initLogtail ctorFails st
    else st
  else st

/-- Result of `sendToBetterStack`: the updated logger state, the record
submitted to the sink (if any), and the `[Logger]`-tagged diagnostic
console lines emitted. -/
structure SendOut where
  state : LoggerState
  submission : Option Submission
  diag : List String
deriving DecidableEq

/-- Diagnostic line of the re-initialization guard, when it fires. -/
def reinitDiag (st : LoggerState) : List String :=
  if st.logtail.isNone && (jsTruthy st.betterStackToken && !st.isInit) then
    ["[Logger] Attempting to reinitialize Logtail"]
  else []

/-- `sendToBetterStack` (src/src/observe.ts lines 311-361): re-init
guard, early return without a sink, then a try/catch around
normalization and submission.  A normalization throw is caught and only
reported; `sinkRejects` says whether the sink's submission promise
rejects, in which case the attached `.catch` logs a diagnostic. -/
def sendToBetterStack (ctorFails sinkRejects : Bool) (st : LoggerState)
    (level : String) (args : List Value) (ts : String) : SendOut :=
  if (reinitIfNeeded ctorFails st).logtail.isNone then
    ⟨reinitIfNeeded ctorFails st, none, reinitDiag st⟩
  else
    match normalize (identOf (reinitIfNeeded ctorFails st)) ts args with
    | .ok (msg, meta) =>
        if levelFn level then
          ⟨reinitIfNeeded ctorFails st, some ⟨level, msg, meta⟩,
            reinitDiag st ++
              (if sinkRejects
               then ["[Logger] Failed to send log to BetterStack"]
               else [])⟩
        else ⟨reinitIfNeeded ctorFails st, none, reinitDiag st⟩
    | .error _ =>
        ⟨reinitIfNeeded ctorFails st, none,
          reinitDiag st ++ ["[Logger] Error in sendToBetterStack"]⟩

/-- Observable outcome of one leveled call: the updated state, the
number of direct console writes the call makes (`console.info(...args)`
etc.), the arguments written, the sink submission if any, and
diagnostic lines. -/
structure CallResult where
  state : LoggerState
  consoleWrites : Nat
  consoleArgs : List Value
  submission : Option Submission
  diag : List String
deriving DecidableEq

/-- One of the `info`/`warn`/`error`/`debug` methods (lines 287-308):
exactly one console write of the arguments, then `sendToBetterStack`. -/
def callLvlBase (ctorFails sinkRejects : Bool) (level : String)
    (st : LoggerState) (args : List Value) (ts : String) : CallResult :=
  let s := sendToBetterStack ctorFails sinkRejects st level args ts
  ⟨s.state, 1, args, s.submission, s.diag⟩

/-- The `log` method (lines 276-284): an extra re-initialization
attempt before the console write, then the `info` path. -/
def logCallBase (ctorFails sinkRejects : Bool) (st : LoggerState)
    (args : List Value) (ts : String) : CallResult :=
  let st0 := if !st.isInit && jsTruthy st.betterStackToken
             then initLogtail ctorFails st else st
  let s := sendToBetterStack ctorFails sinkRejects st0 "info" args ts
  ⟨s.state, 1, args, s.submission, s.diag⟩

/-- A logger as application code sees it: either a plain instance, or a
derived instance returned by `with(context)`, whose leveled methods
have been overridden to weave the context into the arguments before
delegating to the instance's original methods. -/
inductive LoggerView where
  | base : LoggerState → LoggerView
  | derived : Fields → LoggerState → LoggerView
deriving DecidableEq

/-- The underlying instance state of a view. -/
def stateOf : LoggerView → LoggerState
  | .base st => st
  | .derived _ st => st

/-- The argument rewrite each overridden method performs
(src/src/observe.ts lines 382-391): with a string first argument and an
object (`typeof === 'object'`, null included) second argument, replace
the second with `{...context, ...args[1]}`; with only a string first
argument shape, push the context object itself onto the end; otherwise
leave the arguments untouched. -/
def transformArgs (ctx : Fields) : List Value → List Value
  | [] => []
  | a0 :: rest =>
    if isStr a0 then
      match rest with
      | a1 :: rest2 =>
          if typeofObject a1 then
            a0 :: .obj (spreadInto (spreadInto .nil ctx) (enumEntries a1)) :: rest2
          else (a0 :: a1 :: rest2) ++ [.obj ctx]
      | [] => [a0, .obj ctx]
    else a0 :: rest

/-- `with(context)` (src/src/observe.ts lines 364-431): construct a
brand-new `Logger` from this instance's stored credentials, with
identity fields overridden by any identity keys in the context, then
override the new instance's methods to weave in the context.  Note the
class method reads only the receiver's stored fields, so calling it on
a derived logger ignores that logger's own context wrapper. -/
def withCtx (ctorFails : Bool) (env : Env) (v : LoggerView) (ctx : Fields) :
    LoggerView :=
  let st := stateOf v
  let opts : Fields :=
    .cons "betterStackToken" st.betterStackToken
      (.cons "betterStackEndpoint" st.betterStackEndpoint
        (.cons "service" (jsOrV (fgetV ctx "service") st.service)
          (.cons "environment" (jsOrV (fgetV ctx "environment") st.environment)
            (.cons "version" (jsOrV (fgetV ctx "version") st.version) .nil))))
  .derived ctx (mkLogger opts env ctorFails)

/-- A leveled call on a view: a derived view first rewrites the
arguments with its captured context, then runs the underlying
instance's original method. -/
def callLvl (ctorFails sinkRejects : Bool) (level : String) (v : LoggerView)
    (args : List Value) (ts : String) : CallResult :=
  match v with
  | .base st => callLvlBase ctorFails sinkRejects level st args ts
  | .derived ctx st =>
      callLvlBase ctorFails sinkRejects level st (transformArgs ctx args) ts

/-- How the sink's own `flush()` promise behaves: settles after `n`
milliseconds (resolving or rejecting), or never settles. -/
inductive Drain where
  | resolvesAt : Nat → Drain
  | rejectsAt : Nat → Drain
  | never : Drain
deriving DecidableEq

/-- How the logger's `flush()` promise settles: resolution or rejection
at a time, or no settlement at all. -/
inductive FlushOutcome where
  | resolvedAt : Nat → FlushOutcome
  | rejectedAt : Nat → FlushOutcome
  | hangs : FlushOutcome
deriving DecidableEq

/-- Promise-timing semantics of `flush` in src/src/observe.ts lines
434-466: resolve immediately with no sink; otherwise race a 3000 ms
timeout (which resolves) against the sink drain, whose resolution and
rejection are both converted to resolution.  Every path resolves. -/
def flush (st : LoggerState) (d : Drain) : FlushOutcome :=
  match st.logtail with
  | none => .resolvedAt 0
  | some _ =>
    match d with
    | .resolvesAt n => .resolvedAt (min n 3000)
    | .rejectsAt n => .resolvedAt (min n 3000)
    | .never => .resolvedAt 3000

/-- Promise-timing semantics of the variant `flush` in
src/unnamed/part_000 lines 234-244: `await this.logtail.flush()` inside
try/catch with no timeout, then resolve.  A drain that never settles is
awaited forever, so the method's promise never settles. -/
def flushVariant (st : LoggerState) (d : Drain) : FlushOutcome :=
  match st.logtail with
  | none => .resolvedAt 0
  | some _ =>
    match d with
    | .resolvesAt n => .resolvedAt n
    | .rejectsAt n => .resolvedAt n
    | .never => .hangs

/-- An empty process environment. -/
def env0 : Env := ⟨none, none, none, none, none⟩

/-- Constructor options carrying only a source token. -/
def optsTok : Fields := .cons "betterStackToken" (.str "tok") .nil

/-- A logger whose sink construction succeeded. -/
def stOK : LoggerState := mkLogger optsTok env0 false

/-- A logger whose sink construction threw (and keeps throwing). -/
def stFail : LoggerState := mkLogger optsTok env0 true

/-- The default identity resolved from an empty environment. -/
def id0 : Identity := ⟨.str "application", .str "development", .str "1.0.0"⟩

/-- A fixed clock reading. -/
def ts0 : String := "2024-01-01T00:00:00.000Z"

/-- First-defined option value. -/
def firstSome (a b : Option Value) : Option Value :=
  match a with
  | some w => some w
  | none => b

/-- Whether an `Except` result is a success. -/
def eIsOk {a : Type} : Except Unit a → Bool
  | .ok _ => true
  | .error _ => false

/-- Modelled from the spec: the expanded form rule 2 of the Record
Normalizer prescribes for an error value passed as an argument — a
metadata sub-object carrying at minimum name, message, and stack-trace
text.  Stated here only to compare the spec's words with what the code
actually attaches. -/
def errorExpandedSpec (name msg stk : String) : Value :=
  .obj (.cons "name" (.str name)
    (.cons "message" (.str msg)
      (.cons "stack" (.str stk) .nil)))

/-- C5 counterexample fixture: constructor options requesting
`minLevel: "warn"` alongside a sink token. -/
def stWarnOpt : LoggerState :=
  mkLogger (.cons "betterStackToken" (.str "tok")
    (.cons "minLevel" (.str "warn") .nil)) env0 false

/-- Iterate `info` calls on a logger, threading the state. -/
def iterInfo (cf : Bool) (st : LoggerState) : Nat → LoggerState
  | 0 => st
  | n + 1 =>
      iterInfo cf (callLvlBase cf false "info" st [Value.str "x"] ts0).state n

/-- A logger stuck in the failed-initialization configuration: no sink,
not initialized, truthy token, resolvable endpoint. -/
def failPersistent (st : LoggerState) : Prop :=
  st.logtail = none ∧ st.isInit = false ∧ jsTruthy st.betterStackToken = true ∧
    (computeEndpoint st.betterStackEndpoint).isSome = true

/-- A context used in the double-bind counterexample. -/
def cB : Fields := .cons "b" (.num 1) .nil

/-- The second context of the double-bind counterexample. -/
def cA : Fields := .cons "a" (.num 2) .nil

/-- The doubly derived logger `logger.with(c1).with(c2)`. -/
def derived2 (cf : Bool) (env : Env) (st : LoggerState) (c1 c2 : Fields) :
    LoggerView :=
  withCtx cf env (withCtx cf env (.base st) c1) c2

/-- A bind context carrying an identity key, for the C10
counterexample. -/
def ctxSvc : Fields := .cons "service" (.str "payments") .nil

/-- A bind context with a non-identity key, for the C10 witness. -/
def ctxA : Fields := .cons "a" (.num 1) .nil

/-- Structural induction restricted to the field-list type of the
mutual block. -/
theorem fieldsInd (P : Fields → Prop) (h0 : P .nil)
    (h1 : ∀ k v rest, P rest → P (.cons k v rest)) : ∀ m, P m
  | .nil => h0
  | .cons k v rest => h1 k v rest (fieldsInd P h0 h1 rest)

theorem fget_fset (m : Fields) (q : String) (w : Value) (k : String) :
    fget (fset m q w) k = if q = k then some w else fget m k := by
  induction m using fieldsInd with
  | h0 => simp [fset, fget]
  | h1 a u rest ih =>
      simp only [fset]
      by_cases haq : a = q
      · subst haq
        simp only [if_pos rfl, fget]
        by_cases hak : a = k <;> simp [hak]
      · simp only [if_neg haq, fget, ih]
        by_cases hak : a = k
        · subst hak
          rw [if_pos rfl, if_neg (fun hh => haq hh.symm), if_pos rfl]
        · simp [hak]

theorem fget_spreadInto (src m : Fields) (k : String) :
    fget (spreadInto m src) k = firstSome (fgetLast src k) (fget m k) := by
  induction src using fieldsInd generalizing m with
  | h0 => simp [spreadInto, fgetLast, firstSome]
  | h1 q w rest ih =>
      simp only [spreadInto, fgetLast, ih, fget_fset]
      cases hres : fgetLast rest k with
      | some x => simp [firstSome]
      | none =>
          by_cases h : q = k <;> simp [h, firstSome]

theorem hasKey_false_fget (m : Fields) (k : String) (h : hasKey m k = false) :
    fget m k = none := by
  induction m using fieldsInd with
  | h0 => rfl
  | h1 a u rest ih =>
      simp only [hasKey, Bool.or_eq_false_iff, beq_eq_false_iff_ne] at h
      simp [fget, h.1, ih h.2]

theorem hasKey_false_fgetLast (m : Fields) (k : String)
    (h : hasKey m k = false) : fgetLast m k = none := by
  induction m using fieldsInd with
  | h0 => rfl
  | h1 a u rest ih =>
      simp only [hasKey, Bool.or_eq_false_iff, beq_eq_false_iff_ne] at h
      simp [fgetLast, h.1, ih h.2]

theorem hasKey_fset (m : Fields) (q : String) (w : Value) (k : String) :
    hasKey (fset m q w) k = ((q == k) || hasKey m k) := by
  induction m using fieldsInd with
  | h0 => simp [fset, hasKey]
  | h1 a u rest ih =>
      simp only [fset]
      by_cases haq : a = q
      · subst haq
        simp only [if_pos rfl, hasKey]
        rw [← Bool.or_assoc, Bool.or_self]
      · simp only [if_neg haq, hasKey, ih]
        exact Bool.or_left_comm _ _ _

theorem keysNodup_fset (m : Fields) (q : String) (w : Value)
    (h : keysNodup m = true) : keysNodup (fset m q w) = true := by
  induction m using fieldsInd with
  | h0 => simp [fset, keysNodup, hasKey]
  | h1 a u rest ih =>
      simp only [keysNodup, Bool.and_eq_true, Bool.not_eq_true'] at h
      simp only [fset]
      by_cases haq : a = q
      · subst haq
        simp [keysNodup, h.1, h.2]
      · simp only [if_neg haq, keysNodup, hasKey_fset, ih h.2, and_true,
          Bool.and_eq_true, Bool.not_eq_true', Bool.or_eq_false_iff]
        refine ⟨?_, h.1⟩
        simp only [beq_eq_false_iff_ne]
        exact fun hh => haq hh.symm


theorem fgetLast_fset_nodup (m : Fields) (q : String) (w : Value) (k : String)
    (h : keysNodup m = true) :
    fgetLast (fset m q w) k = if q = k then some w else fgetLast m k := by
  induction m using fieldsInd with
  | h0 => simp [fset, fgetLast]
  | h1 a u rest ih =>
      simp only [keysNodup, Bool.and_eq_true, Bool.not_eq_true'] at h
      simp only [fset]
      by_cases haq : a = q
      · subst haq
        simp only [if_pos rfl, fgetLast]
        by_cases hak : a = k
        · subst hak
          rw [hasKey_false_fgetLast rest a h.1]
          simp
        · simp [hak]
      · simp only [if_neg haq, fgetLast, ih h.2]
        by_cases hqk : q = k
        · simp [hqk]
        · simp only [if_neg hqk]

theorem keysNodup_spreadInto (src m : Fields) (h : keysNodup m = true) :
    keysNodup (spreadInto m src) = true := by
  induction src using fieldsInd generalizing m with
  | h0 => simpa [spreadInto] using h
  | h1 q w rest ih => simp [spreadInto, ih _ (keysNodup_fset m q w h)]

theorem fgetLast_spreadInto_nodup (src m : Fields) (k : String)
    (h : keysNodup m = true) :
    fgetLast (spreadInto m src) k = firstSome (fgetLast src k) (fgetLast m k) := by
  induction src using fieldsInd generalizing m with
  | h0 => simp [spreadInto, fgetLast, firstSome]
  | h1 q w rest ih =>
      simp only [spreadInto, fgetLast,
        ih (fset m q w) (keysNodup_fset m q w h),
        fgetLast_fset_nodup m q w k h]
      cases hres : fgetLast rest k with
      | some x => simp [firstSome]
      | none => by_cases hqk : q = k <;> simp [hqk, firstSome]

theorem identOf_initLogtail (cf : Bool) (st : LoggerState) :
    identOf (initLogtail cf st) = identOf st := by
  unfold initLogtail
  (repeat' split) <;> rfl

theorem identOf_reinit (cf : Bool) (st : LoggerState) :
    identOf (reinitIfNeeded cf st) = identOf st := by
  unfold reinitIfNeeded
  (repeat' split) <;> simp [identOf_initLogtail]

theorem fget_baseMeta_other (i : Identity) (ts k : String)
    (h1 : k ≠ "service") (h2 : k ≠ "environment") (h3 : k ≠ "version")
    (h4 : k ≠ "timestamp") : fget (baseMeta i ts) k = none := by
  simp only [baseMeta, fget]
  rw [if_neg (fun hh => h1 hh.symm), if_neg (fun hh => h2 hh.symm),
      if_neg (fun hh => h3 hh.symm), if_neg (fun hh => h4 hh.symm)]

theorem fget_baseMeta_agree (i : Identity) (t1 t2 k : String)
    (h : k ≠ "timestamp") :
    fget (baseMeta i t1) k = fget (baseMeta i t2) k := by
  simp only [baseMeta, fget]
  by_cases h1 : "service" = k
  · simp [h1]
  · simp only [if_neg h1]
    by_cases h2 : "environment" = k
    · simp [h2]
    · simp only [if_neg h2]
      by_cases h3 : "version" = k
      · simp [h3]
      · simp only [if_neg h3]
        rw [if_neg (fun hh => h hh.symm), if_neg (fun hh => h hh.symm)]


theorem firstSome_none (a : Option Value) : firstSome a none = a := by
  cases a <;> rfl

theorem firstSome_assoc (a b c : Option Value) :
    firstSome (firstSome a b) c = firstSome a (firstSome b c) := by
  cases a <;> rfl

theorem normalize_nonstring (i : Identity) (ts : String) (a0 : Value)
    (rest : List Value) (h : isStr a0 = false) :
    normalize i ts (a0 :: rest) =
      match jsonStringifyArr (a0 :: rest) with
      | .ok s => .ok (s, baseMeta i ts)
      | .error e => .error e := by
  cases a0 <;> first | rfl | simp [isStr] at h

theorem send_submission (cf rj : Bool) (st : LoggerState) (lvl : String)
    (args : List Value) (ts : String) (sub : Submission)
    (h : (sendToBetterStack cf rj st lvl args ts).submission = some sub) :
    ∃ msg meta, normalize (identOf st) ts args = .ok (msg, meta) ∧
      sub = ⟨lvl, msg, meta⟩ := by
  unfold sendToBetterStack at h
  rw [identOf_reinit] at h
  split at h
  · simp at h
  · split at h
    next msg meta heq =>
      split at h
      · refine ⟨msg, meta, ?_, ?_⟩
        · exact heq
        · simpa using h.symm
      · simp at h
    next => simp at h


/-- C1 counterexample: calling `error(err)` with `err = Error("boom")`
submits message `"[\x7b\x7d]"` (the JSON rendering of the whole
argument array, errors having no enumerable own fields) — not the
error's message text `"boom"` — and the submitted metadata is just the
base metadata, which has no `error` entry at all. -/
theorem c1_counterexample :
    (sendToBetterStack false false stOK "error"
        [Value.verror "Error" "boom" "trace" Fields.nil] ts0).submission =
      some ⟨"error", "[\x7b\x7d]", baseMeta id0 ts0⟩ ∧
    ("[\x7b\x7d]" : String) ≠ "boom" ∧
    fget (baseMeta id0 ts0) "error" = none := by
  exact ⟨rfl, by decide, rfl⟩

/-- C1 (amended): a leveled call whose first argument is an error value
does not expand the error; the message is `JSON.stringify` of the whole
argument array (propagating a stringification throw), and the metadata
is exactly the base metadata, which never contains an `error` entry. -/
theorem c1_amended (i : Identity) (ts name msg stk : String) (extra : Fields)
    (rest : List Value) :
    normalize i ts (Value.verror name msg stk extra :: rest) =
      (match jsonStringifyArr (Value.verror name msg stk extra :: rest) with
       | .ok s => .ok (s, baseMeta i ts)
       | .error e => .error e) ∧
    fget (baseMeta i ts) "error" = none := by
  exact ⟨normalize_nonstring i ts _ rest rfl, rfl⟩

/-- C3 counterexample: `log("x", [5])` — a single remaining argument
that is an array, hence not a plain map — is spread-merged into the
metadata (its index `0` appears as a key) rather than attached under an
`args` list key, contradicting the claim's second half. -/
theorem c3_counterexample :
    (normalize id0 ts0
        [Value.str "x", Value.arr (Elems.cons (Value.num 5) Elems.nil)]).map
        (fun r => (r.1, fget r.2 "args", fget r.2 "0")) =
      .ok ("x", none, some (Value.num 5)) := rfl

/-- C3 (amended): with a string message and exactly one remaining
argument, any non-null value of JS type object — plain map, array or
error alike — is spread-merged into the metadata with its enumerable
entries overriding same-named fields (rightmost wins); only a non-object
or null single remaining argument is attached under the `args` list
key. -/
theorem c3_amended (i : Identity) (ts s : String) (v : Value) (k : String) :
    normalize i ts [Value.str s, v] =
      .ok (s, if typeofObject v && !isVNull v
              then mergeSpread (baseMeta i ts) v
              else fset (baseMeta i ts) "args" (.arr (Elems.cons v Elems.nil))) ∧
    fget (mergeSpread (baseMeta i ts) v) k =
      firstSome (fgetLast (enumEntries v) k) (fget (baseMeta i ts) k) := by
  constructor
  · cases h : typeofObject v && !isVNull v <;>
      simp [normalize, h, elemsOf]
  · exact fget_spreadInto (enumEntries v) (baseMeta i ts) k

/-- C4 counterexample: `log("m", err, 42)` attaches the remaining
arguments verbatim under `args`: the error value itself appears in the
list, not the name/message/stack expansion the claim prescribes. -/
theorem c4_counterexample :
    (normalize id0 ts0
        [Value.str "m", Value.verror "Error" "boom" "trace" Fields.nil,
         Value.num 42]).map (fun r => fget r.2 "args") =
      .ok (some (Value.arr
        (Elems.cons (Value.verror "Error" "boom" "trace" Fields.nil)
          (Elems.cons (Value.num 42) Elems.nil)))) ∧
    Value.verror "Error" "boom" "trace" Fields.nil ≠
      errorExpandedSpec "Error" "boom" "trace" := by
  exact ⟨rfl, by decide⟩

/-- C4 (amended): with a string message and two or more remaining
arguments, the metadata carries the single list key `args` holding the
remaining arguments verbatim in call order — nothing is dropped, and
error values are not expanded. -/
theorem c4_amended (i : Identity) (ts s : String) (a b : Value)
    (rest : List Value) :
    normalize i ts (Value.str s :: a :: b :: rest) =
      .ok (s, fset (baseMeta i ts) "args" (.arr (elemsOf (a :: b :: rest)))) := rfl

/-- C9 counterexample: normalizing the same argument list at two
successive clock readings yields records that are not structurally
equal — the `timestamp` metadata field differs between the two runs. -/
theorem c9_counterexample :
    normalize id0 "2024-01-01T00:00:00.000Z" [Value.str "x"] ≠
      normalize id0 "2024-01-01T00:00:00.001Z" [Value.str "x"] := by decide

/-- C9 (amended): normalization is deterministic as a function of the
argument list and the clock reading: two runs on the same arguments
succeed or throw together, agree exactly on the message, and agree on
every metadata key other than `timestamp`; only the `timestamp` field
can differ between runs taken at different clock readings. -/
theorem c9_nonstrAux (i : Identity) (t1 t2 k : String) (a0 : Value)
    (rest : List Value) (h : isStr a0 = false) :
    eIsOk (normalize i t1 (a0 :: rest)) = eIsOk (normalize i t2 (a0 :: rest)) ∧
    (∀ m1 f1 m2 f2, normalize i t1 (a0 :: rest) = .ok (m1, f1) →
        normalize i t2 (a0 :: rest) = .ok (m2, f2) →
        m1 = m2 ∧ (k ≠ "timestamp" → fget f1 k = fget f2 k)) := by
  rw [normalize_nonstring i t1 a0 rest h, normalize_nonstring i t2 a0 rest h]
  cases hj : jsonStringifyArr (a0 :: rest) with
  | ok s2 =>
      refine ⟨rfl, ?_⟩
      intro m1 f1 m2 f2 h1 h2
      cases h1; cases h2
      exact ⟨rfl, fun hk => fget_baseMeta_agree i t1 t2 k hk⟩
  | error u =>
      refine ⟨rfl, ?_⟩
      intro m1 f1 m2 f2 h1 h2
      simp at h1

theorem c9_amended (i : Identity) (t1 t2 : String) (args : List Value)
    (k : String) :
    eIsOk (normalize i t1 args) = eIsOk (normalize i t2 args) ∧
    (∀ m1 f1 m2 f2, normalize i t1 args = .ok (m1, f1) →
        normalize i t2 args = .ok (m2, f2) →
        m1 = m2 ∧ (k ≠ "timestamp" → fget f1 k = fget f2 k)) := by
  cases args with
  | nil =>
      refine ⟨rfl, ?_⟩
      intro m1 f1 m2 f2 h1 h2
      cases h1; cases h2
      exact ⟨rfl, fun hk => fget_baseMeta_agree i t1 t2 k hk⟩
  | cons a0 rest =>
      cases a0 with
      | str s =>
          cases rest with
          | nil =>
              refine ⟨rfl, ?_⟩
              intro m1 f1 m2 f2 h1 h2
              cases h1; cases h2
              exact ⟨rfl, fun hk => fget_baseMeta_agree i t1 t2 k hk⟩
          | cons a1 rest2 =>
              cases rest2 with
              | nil =>
                  by_cases hc : (typeofObject a1 && !isVNull a1) = true
                  · refine ⟨by simp [normalize, hc, eIsOk], ?_⟩
                    intro m1 f1 m2 f2 h1 h2
                    simp only [normalize, hc, if_true] at h1 h2
                    cases h1; cases h2
                    refine ⟨rfl, fun hk => ?_⟩
                    rw [mergeSpread, mergeSpread, fget_spreadInto, fget_spreadInto,
                        fget_baseMeta_agree i t1 t2 k hk]
                  · rw [Bool.not_eq_true] at hc
                    refine ⟨by simp [normalize, hc, eIsOk], ?_⟩
                    intro m1 f1 m2 f2 h1 h2
                    simp only [normalize, hc, Bool.false_eq_true, if_false] at h1 h2
                    cases h1; cases h2
                    refine ⟨rfl, fun hk => ?_⟩
                    rw [fget_fset, fget_fset]
                    by_cases hak : "args" = k
                    · simp [hak]
                    · simp [hak, fget_baseMeta_agree i t1 t2 k hk]
              | cons b rest3 =>
                  refine ⟨rfl, ?_⟩
                  intro m1 f1 m2 f2 h1 h2
                  cases h1; cases h2
                  refine ⟨rfl, fun hk => ?_⟩
                  rw [fget_fset, fget_fset]
                  by_cases hak : "args" = k
                  · simp [hak]
                  · simp [hak, fget_baseMeta_agree i t1 t2 k hk]
      | num n => exact c9_nonstrAux i t1 t2 k _ rest rfl
      | bool b => exact c9_nonstrAux i t1 t2 k _ rest rfl
      | vnull => exact c9_nonstrAux i t1 t2 k _ rest rfl
      | vundefined => exact c9_nonstrAux i t1 t2 k _ rest rfl
      | vbigint n => exact c9_nonstrAux i t1 t2 k _ rest rfl
      | verror nm ms sk ex => exact c9_nonstrAux i t1 t2 k _ rest rfl
      | obj f => exact c9_nonstrAux i t1 t2 k _ rest rfl
      | arr es => exact c9_nonstrAux i t1 t2 k _ rest rfl

/-- State projection of a leveled call. -/
theorem callLvlBase_state (cf rj : Bool) (lvl : String) (st : LoggerState)
    (args : List Value) (ts : String) :
    (callLvlBase cf rj lvl st args ts).state =
      (sendToBetterStack cf rj st lvl args ts).state := rfl

/-- Submission projection of a leveled call. -/
theorem callLvlBase_sub (cf rj : Bool) (lvl : String) (st : LoggerState)
    (args : List Value) (ts : String) :
    (callLvlBase cf rj lvl st args ts).submission =
      (sendToBetterStack cf rj st lvl args ts).submission := rfl

/-- A leveled call submits a record exactly when, after the
re-initialization guard, a sink is present and normalization
succeeds. -/
theorem send_isSome (cf rj : Bool) (st : LoggerState) (lvl : String)
    (args : List Value) (ts : String) (hl : levelFn lvl = true) :
    (sendToBetterStack cf rj st lvl args ts).submission.isSome =
      ((sendToBetterStack cf rj st lvl args ts).state.logtail.isSome &&
        eIsOk (normalize (identOf st) ts args)) := by
  unfold sendToBetterStack
  rw [identOf_reinit]
  cases hnorm : normalize (identOf st) ts args with
  | ok p =>
      obtain ⟨msg, meta⟩ := p
      simp only [hnorm, hl, if_true]
      by_cases hnone : (reinitIfNeeded cf st).logtail.isNone = true
      · rw [if_pos hnone]
        simp [Option.isNone_iff_eq_none.mp hnone]
      · rw [if_neg hnone]
        rw [Bool.not_eq_true, Option.isNone_eq_false_iff] at hnone
        simp [eIsOk, hnone]
  | error u =>
      simp only [hnorm]
      by_cases hnone : (reinitIfNeeded cf st).logtail.isNone = true
      · rw [if_pos hnone]
        simp [Option.isNone_iff_eq_none.mp hnone]
      · rw [if_neg hnone]
        simp [eIsOk]


/-- C5 counterexample: on a logger constructed with `minLevel: "warn"`
(an option the constructor never reads), a `debug` call still performs
one console write and one remote submission, instead of the zero of
each the claim requires. -/
theorem c5_counterexample :
    (callLvlBase false false "debug" stWarnOpt [Value.str "x"] ts0).consoleWrites
        = 1 ∧
    (callLvlBase false false "debug" stWarnOpt [Value.str "x"] ts0).submission.isSome
        = true := ⟨rfl, rfl⟩

/-- C5 (amended): the constructor recognizes no minimum-level option
(adding one leaves the constructed logger unchanged) and the dispatcher
has no level filter: on any logger, `debug` and `error` alike perform
exactly one console write and submit exactly one record whenever the
sink is available and normalization succeeds. -/
theorem c5_amended (opts : Fields) (env : Env) (cf : Bool) (mlv : Value)
    (args : List Value) (ts : String) :
    mkLogger (fset opts "minLevel" mlv) env cf = mkLogger opts env cf ∧
    (callLvlBase cf false "debug" (mkLogger opts env cf) args ts).consoleWrites = 1 ∧
    (callLvlBase cf false "error" (mkLogger opts env cf) args ts).consoleWrites = 1 ∧
    (callLvlBase cf false "debug" (mkLogger opts env cf) args ts).submission.isSome =
      ((callLvlBase cf false "debug" (mkLogger opts env cf) args ts).state.logtail.isSome &&
        eIsOk (normalize (identOf (mkLogger opts env cf)) ts args)) ∧
    (callLvlBase cf false "error" (mkLogger opts env cf) args ts).submission.isSome =
      ((callLvlBase cf false "error" (mkLogger opts env cf) args ts).state.logtail.isSome &&
        eIsOk (normalize (identOf (mkLogger opts env cf)) ts args)) := by
  refine ⟨?_, rfl, rfl, ?_, ?_⟩
  · unfold mkLogger
    simp [fgetV, fget_fset]
  · rw [callLvlBase_sub, callLvlBase_state]
    exact send_isSome cf false (mkLogger opts env cf) "debug" args ts rfl
  · rw [callLvlBase_sub, callLvlBase_state]
    exact send_isSome cf false (mkLogger opts env cf) "error" args ts rfl

/-- C7 counterexample: `info(1n)` — `JSON.stringify` throws on the
BigInt, the catch swallows it, and the call submits nothing at all: the
record is dropped, not degraded to a coarser-but-valid record as the
claim requires; the call itself still returns with its one console
write and a diagnostic line. -/
theorem c7_counterexample :
    (callLvlBase false false "info" stOK [Value.vbigint 1] ts0).submission
        = none ∧
    normalize (identOf stOK) ts0 [Value.vbigint 1] = .error () ∧
    (callLvlBase false false "info" stOK [Value.vbigint 1] ts0).consoleWrites
        = 1 ∧
    (callLvlBase false false "info" stOK [Value.vbigint 1] ts0).diag =
      ["[Logger] Error in sendToBetterStack"] := ⟨rfl, rfl, rfl, rfl⟩

/-- C7 (amended): every leveled call returns to the caller with exactly
one console write; a normalization throw is caught — the remote record
for that call is dropped and a diagnostic line is emitted, but nothing
propagates; and a rejected remote submission is only reported on the
console diagnostic channel, never re-raised. -/
theorem c7_amended (cf rj : Bool) (st : LoggerState) (lvl : String)
    (args : List Value) (ts : String) :
    (callLvlBase cf rj lvl st args ts).consoleWrites = 1 ∧
    (normalize (identOf st) ts args = .error () →
      (callLvlBase cf rj lvl st args ts).submission = none ∧
      ((callLvlBase cf rj lvl st args ts).state.logtail.isSome = true →
        "[Logger] Error in sendToBetterStack" ∈ (callLvlBase cf rj lvl st args ts).diag)) ∧
    (rj = true → ∀ sub, (callLvlBase cf rj lvl st args ts).submission = some sub →
      "[Logger] Failed to send log to BetterStack" ∈ (callLvlBase cf rj lvl st args ts).diag) := by
  refine ⟨rfl, ?_, ?_⟩
  · intro hn
    rw [callLvlBase_sub, callLvlBase_state]
    have hd : (callLvlBase cf rj lvl st args ts).diag =
        (sendToBetterStack cf rj st lvl args ts).diag := rfl
    rw [hd]
    unfold sendToBetterStack
    rw [identOf_reinit, hn]
    split
    next hnone =>
        refine ⟨rfl, ?_⟩
        intro hs
        rw [Option.isNone_iff_eq_none] at hnone
        rw [hnone] at hs
        simp at hs
    next hs => exact ⟨rfl, fun _ => by simp⟩
  · intro hrj sub hsub
    have hd : (callLvlBase cf rj lvl st args ts).diag =
        (sendToBetterStack cf rj st lvl args ts).diag := rfl
    rw [callLvlBase_sub] at hsub
    rw [hd]
    unfold sendToBetterStack at hsub ⊢
    cases hnorm : normalize (identOf (reinitIfNeeded cf st)) ts args with
    | ok p =>
        obtain ⟨msg, meta⟩ := p
        simp only [hnorm, hrj, if_true] at hsub ⊢
        by_cases hnone : (reinitIfNeeded cf st).logtail.isNone = true
        · rw [if_pos hnone] at hsub
          simp at hsub
        · rw [if_neg hnone] at hsub ⊢
          by_cases hlv : levelFn lvl = true
          · rw [if_pos hlv]
            simp
          · rw [if_neg hlv] at hsub
            simp at hsub
    | error u =>
        simp only [hnorm] at hsub
        by_cases hnone : (reinitIfNeeded cf st).logtail.isNone = true
        · rw [if_pos hnone] at hsub
          simp at hsub
        · rw [if_neg hnone] at hsub
          simp at hsub



/-- One `info` call on a stuck logger whose sink constructor keeps
throwing performs exactly one more construction attempt and leaves the
logger stuck. -/
theorem step_fail (st : LoggerState) (h : failPersistent st) :
    (callLvlBase true false "info" st [Value.str "x"] ts0).state =
      { st with attempts := st.attempts + 1 } ∧
    failPersistent { st with attempts := st.attempts + 1 } := by
  obtain ⟨h1, h2, h3, h4⟩ := h
  rw [Option.isSome_iff_exists] at h4
  obtain ⟨ep, hep⟩ := h4
  have hini : initLogtail true st = { st with attempts := st.attempts + 1 } := by
    unfold initLogtail
    rw [if_neg (by simp [h2]), if_pos h3, hep]
    simp
  have hre : reinitIfNeeded true st = { st with attempts := st.attempts + 1 } := by
    unfold reinitIfNeeded
    rw [if_pos (by simp [h1]), if_pos (by simp [h2, h3]), hini]
  constructor
  · rw [callLvlBase_state]
    unfold sendToBetterStack
    rw [hre, if_pos (by simp [h1])]
  · exact ⟨h1, h2, h3, by rw [Option.isSome_iff_exists]; exact ⟨ep, hep⟩⟩

/-- Attempt counting over any number of `info` calls on a stuck
logger: one construction attempt per call, without bound. -/
theorem iterInfo_attempts (n : Nat) : ∀ st : LoggerState, failPersistent st →
    (iterInfo true st n).attempts = st.attempts + n := by
  induction n with
  | zero => intro st _; simp [iterInfo]
  | succ m ih =>
      intro st h
      obtain ⟨hstep, hpers⟩ := step_fail st h
      unfold iterInfo
      rw [hstep, ih _ hpers]
      show st.attempts + 1 + m = st.attempts + (m + 1)
      omega

/-- C8 counterexample: with a token present and a sink constructor that
keeps throwing, construction is attempted once by the logger
constructor, then once more on every single `info` call (4 attempts
after 3 calls), and the `log` method even attempts twice in one call (3
attempts after one call) — not the bounded count the claim requires. -/
theorem c8_counterexample :
    stFail.attempts = 1 ∧ stFail.logtail = none ∧
    (iterInfo true stFail 3).attempts = 4 ∧
    (logCallBase true false stFail [Value.str "x"] ts0).state.attempts = 3 := by
  exact ⟨rfl, rfl, rfl, rfl⟩

/-- C8 (amended): after a failed sink initialization at construction
time (one attempt), every leveled call re-attempts sink construction:
after `n` `info` calls on the stuck logger the attempt count is exactly
`n + 1` — one re-initialization attempt per call, unbounded in the
length of the call sequence. -/
theorem c8_amended (n : Nat) : (iterInfo true stFail n).attempts = n + 1 := by
  have h : failPersistent stFail := ⟨rfl, rfl, rfl, rfl⟩
  have h1 : stFail.attempts = 1 := rfl
  rw [iterInfo_attempts n stFail h, h1]
  omega

/-- C6 counterexample: the variant `flush` of src/unnamed/part_000, on
a logger with a configured sink whose drain never settles, never
settles either — it hangs instead of resolving within a flush
timeout. -/
theorem c6_counterexample :
    flushVariant stOK Drain.never = FlushOutcome.hangs ∧
    flushVariant stOK Drain.never ≠ FlushOutcome.resolvedAt 3000 := by
  exact ⟨rfl, by decide⟩

/-- C6 (amended): the primary `Logger.flush` always resolves and never
rejects — immediately when no sink is configured, and within its fixed
3000 ms timeout whatever the drain does (including a drain that never
settles); the variant `flush` in the unnamed file also never rejects
and resolves immediately when no sink is configured, but with a sink
whose drain never settles it hangs instead of settling within any
timeout. -/
theorem c6_amended (st : LoggerState) (d : Drain) :
    (∃ n, n ≤ 3000 ∧ flush st d = .resolvedAt n) ∧
    (st.logtail = none → flush st d = .resolvedAt 0) ∧
    (∀ n, flush st d ≠ .rejectedAt n) ∧
    (flush st d ≠ .hangs) ∧
    (∀ n, flushVariant st d ≠ .rejectedAt n) ∧
    (st.logtail = none → flushVariant st d = .resolvedAt 0) ∧
    (st.logtail.isSome = true → flushVariant st Drain.never = .hangs) := by
  cases hl : st.logtail with
  | none =>
      refine ⟨⟨0, by omega, by simp [flush, hl]⟩, fun _ => by simp [flush, hl],
        fun n => by simp [flush, hl], by simp [flush, hl],
        fun n => by cases d <;> simp [flushVariant, hl],
        fun _ => by simp [flushVariant, hl],
        fun hs => by simp at hs⟩
  | some p =>
      refine ⟨?_, fun he => Option.noConfusion he,
        fun n => by cases d <;> simp [flush, hl],
        by cases d <;> simp [flush, hl],
        fun n => by cases d <;> simp [flushVariant, hl],
        fun he => Option.noConfusion he,
        fun _ => by simp [flushVariant, hl]⟩
      cases d with
      | resolvesAt n =>
          exact ⟨min n 3000, Nat.min_le_right n 3000, by simp [flush, hl]⟩
      | rejectsAt n =>
          exact ⟨min n 3000, Nat.min_le_right n 3000, by simp [flush, hl]⟩
      | never => exact ⟨3000, le_refl 3000, by simp [flush, hl]⟩

/-- C6 witness: applying the amended flush theorem to the concrete
logger with a configured sink and a never-settling drain, and to a
sinkless logger whose variant flush resolves immediately. -/
theorem c6_witness :
    flushVariant stOK Drain.never = FlushOutcome.hangs ∧
    flush stOK Drain.never ≠ FlushOutcome.hangs ∧
    flushVariant (mkLogger Fields.nil env0 false) Drain.never =
      FlushOutcome.resolvedAt 0 := by
  exact ⟨(c6_amended stOK Drain.never).2.2.2.2.2.2 rfl,
    (c6_amended stOK Drain.never).2.2.2.1,
    (c6_amended (mkLogger Fields.nil env0 false) Drain.never).2.2.2.2.2.1 rfl⟩




/-- C2 counterexample: on `logger.with({b:1}).with({a:2})`, calling
`info("x")` delivers metadata with no `b` key at all — the first bound
context is dropped by the second `with` — while the rightmost `a` key
is present; the original logger is indeed unaffected. -/
theorem c2_counterexample :
    (callLvl false false "info" (derived2 false env0 stOK cB cA)
        [Value.str "x"] ts0).submission.map
        (fun sub => (fget sub.metadata "b", fget sub.metadata "a")) =
      some (none, some (Value.num 2)) ∧
    (callLvl false false "info" (.base stOK) [Value.str "x"] ts0).submission.map
        (fun sub => (fget sub.metadata "b", fget sub.metadata "a")) =
      some (none, none) := ⟨rfl, rfl⟩

/-- C2 (amended): `with` on a derived logger reads only the underlying
instance state, so the second bind discards the first bind's context
wrapper entirely: a call on `logger.with(c1).with(c2)` delivers
metadata equal to `c2` merged with the per-call metadata over the
derived identity fields, rightmost wins; every key of `c1` outside the
identity fields is absent; and the original logger still delivers only
its base metadata. -/
theorem c2_amended (cf : Bool) (env : Env) (st : LoggerState) (c1 c2 mm : Fields)
    (s ts k : String) :
    derived2 cf env st c1 c2 =
      withCtx cf env (.base (stateOf (withCtx cf env (.base st) c1))) c2 ∧
    (∀ sub, (callLvl cf false "info" (derived2 cf env st c1 c2)
          [Value.str s, Value.obj mm] ts).submission = some sub →
        fget sub.metadata k =
          firstSome (fgetLast mm k) (firstSome (fgetLast c2 k)
            (fget (baseMeta (identOf (stateOf (derived2 cf env st c1 c2))) ts) k))) ∧
    (∀ sub, (callLvl cf false "info" (derived2 cf env st c1 c2)
          [Value.str s] ts).submission = some sub →
        fget sub.metadata k =
          firstSome (fgetLast c2 k)
            (fget (baseMeta (identOf (stateOf (derived2 cf env st c1 c2))) ts) k)) ∧
    (∀ sub, (callLvl cf false "info" (.base st) [Value.str s] ts).submission = some sub →
        fget sub.metadata k = fget (baseMeta (identOf st) ts) k) := by
  refine ⟨rfl, ?_, ?_, ?_⟩
  · intro sub h
    obtain ⟨msg, meta, hnorm, hsub⟩ :=
      send_submission cf false (stateOf (derived2 cf env st c1 c2)) "info"
        (transformArgs c2 [Value.str s, Value.obj mm]) ts sub h
    have htr : transformArgs c2 [Value.str s, Value.obj mm] =
        [Value.str s, Value.obj (spreadInto (spreadInto Fields.nil c2) mm)] := rfl
    rw [htr] at hnorm
    have hn2 : normalize (identOf (stateOf (derived2 cf env st c1 c2))) ts
        [Value.str s, Value.obj (spreadInto (spreadInto Fields.nil c2) mm)] =
        .ok (s, spreadInto
          (baseMeta (identOf (stateOf (derived2 cf env st c1 c2))) ts)
          (spreadInto (spreadInto Fields.nil c2) mm)) := rfl
    rw [hn2] at hnorm
    cases hnorm
    rw [hsub]
    show fget (spreadInto
      (baseMeta (identOf (stateOf (derived2 cf env st c1 c2))) ts)
      (spreadInto (spreadInto Fields.nil c2) mm)) k = _
    rw [fget_spreadInto,
      fgetLast_spreadInto_nodup mm (spreadInto Fields.nil c2) k
        (keysNodup_spreadInto c2 Fields.nil rfl),
      fgetLast_spreadInto_nodup c2 Fields.nil k rfl,
      show fgetLast Fields.nil k = none from rfl, firstSome_none,
      firstSome_assoc]
  · intro sub h
    obtain ⟨msg, meta, hnorm, hsub⟩ :=
      send_submission cf false (stateOf (derived2 cf env st c1 c2)) "info"
        (transformArgs c2 [Value.str s]) ts sub h
    have htr : transformArgs c2 [Value.str s] =
        [Value.str s, Value.obj c2] := rfl
    rw [htr] at hnorm
    have hn2 : normalize (identOf (stateOf (derived2 cf env st c1 c2))) ts
        [Value.str s, Value.obj c2] =
        .ok (s, spreadInto
          (baseMeta (identOf (stateOf (derived2 cf env st c1 c2))) ts) c2) := rfl
    rw [hn2] at hnorm
    cases hnorm
    rw [hsub]
    show fget (spreadInto
      (baseMeta (identOf (stateOf (derived2 cf env st c1 c2))) ts) c2) k = _
    rw [fget_spreadInto]
  · intro sub h
    obtain ⟨msg, meta, hnorm, hsub⟩ :=
      send_submission cf false st "info" [Value.str s] ts sub h
    have hn2 : normalize (identOf st) ts [Value.str s] =
        .ok (s, baseMeta (identOf st) ts) := rfl
    rw [hn2] at hnorm
    cases hnorm
    rw [hsub]

/-- C2 witness: the amended theorem applied to the concrete doubly
derived logger of the counterexample, with a call carrying only the
message. -/
theorem c2_witness :
    fget (spreadInto (baseMeta id0 ts0) cA) "b" =
      firstSome (fgetLast cA "b")
        (fget (baseMeta (identOf (stateOf (derived2 false env0 stOK cB cA))) ts0) "b") := by
  exact (c2_amended false env0 stOK cB cA Fields.nil "x" ts0 "b").2.2.1
    ⟨"info", "x", spreadInto (baseMeta id0 ts0) cA⟩ rfl



/-- C10 counterexample: a derived logger bound with
`{service: "payments"}`, on the non-string call `info(42)`, delivers
metadata whose `service` entry is exactly the context's value — a
context key does appear in the submitted metadata, because `with`
bakes identity keys into the derived logger's identity. -/
theorem c10_counterexample :
    (callLvl false false "info" (withCtx false env0 (.base stOK) ctxSvc)
        [Value.num 42] ts0).submission.map
        (fun sub => (sub.message, fget sub.metadata "service")) =
      some ("[42]", some (Value.str "payments")) ∧
    fget ctxSvc "service" = some (Value.str "payments") := ⟨rfl, rfl⟩

/-- C10 (amended): a non-string-first call on a derived logger forwards
its arguments unchanged and merges no context entry into the record
directly — every non-identity key of the context is absent from the
delivered metadata — but identity keys (`service`, `environment`,
`version`) supplied in the context do surface, through the derived
logger's identity fields. -/
theorem c10_amended (cf : Bool) (env : Env) (st : LoggerState) (ctx : Fields)
    (a0 : Value) (rest : List Value) (ts k : String)
    (h0 : isStr a0 = false) (h1 : k ≠ "service") (h2 : k ≠ "environment")
    (h3 : k ≠ "version") (h4 : k ≠ "timestamp") :
    transformArgs ctx (a0 :: rest) = a0 :: rest ∧
    (∀ sub, (callLvl cf false "info" (withCtx cf env (.base st) ctx)
          (a0 :: rest) ts).submission = some sub →
        fget sub.metadata k = none) := by
  have htr : transformArgs ctx (a0 :: rest) = a0 :: rest := by
    cases a0 <;> first | rfl | simp [isStr] at h0
  refine ⟨htr, ?_⟩
  intro sub h
  obtain ⟨msg, meta, hnorm, hsub⟩ :=
    send_submission cf false (stateOf (withCtx cf env (.base st) ctx)) "info"
      (transformArgs ctx (a0 :: rest)) ts sub h
  rw [htr, normalize_nonstring _ ts a0 rest h0] at hnorm
  cases hj : jsonStringifyArr (a0 :: rest) with
  | ok s2 =>
      simp only [hj] at hnorm
      cases hnorm
      rw [hsub]
      exact fget_baseMeta_other _ ts k h1 h2 h3 h4
  | error u =>
      simp only [hj] at hnorm
      exact Except.noConfusion hnorm

/-- C10 witness: the amended theorem applied to a derived logger bound
with the non-identity context `{a: 1}` and the call `info(42)`. -/
theorem c10_witness :
    transformArgs ctxA [Value.num 42] = [Value.num 42] ∧
    fget (baseMeta id0 ts0) "a" = none := by
  refine ⟨(c10_amended false env0 stOK ctxA (Value.num 42) [] ts0 "a" rfl
    (by decide) (by decide) (by decide) (by decide)).1, ?_⟩
  exact (c10_amended false env0 stOK ctxA (Value.num 42) [] ts0 "a" rfl
    (by decide) (by decide) (by decide) (by decide)).2
    ⟨"info", "[42]", baseMeta id0 ts0⟩ rfl

/-- C7 witness: the amended theorem applied to a concrete BigInt call
(normalization throws, record dropped, call returns) and to a concrete
string call whose sink submission rejects (diagnostic line present). -/
theorem c7_witness :
    (callLvlBase false true "info" stOK [Value.vbigint 1] ts0).submission = none ∧
    "[Logger] Failed to send log to BetterStack" ∈
      (callLvlBase false true "info" stOK [Value.str "x"] ts0).diag := by
  refine ⟨((c7_amended false true stOK "info" [Value.vbigint 1] ts0).2.1 rfl).1, ?_⟩
  exact (c7_amended false true stOK "info" [Value.str "x"] ts0).2.2 rfl
    ⟨"info", "x", baseMeta id0 ts0⟩ rfl

/-- C9 witness: the amended theorem applied to two concrete clock
readings and the `service` key. -/
theorem c9_witness :
    fget (baseMeta id0 "T1") "service" = fget (baseMeta id0 "T2") "service" := by
  exact ((c9_amended id0 "T1" "T2" [Value.str "x"] "service").2
    "x" (baseMeta id0 "T1") "x" (baseMeta id0 "T2") rfl rfl).2 (by decide)

end Observe
